import Mathlib

/-
Verification of the order fulfillment and position-sizing engine of the
deep-crypto-agent repository (src/abupy/TradeBu/ABuOrder.py: class AbuOrder,
methods fit_buy_order and fit_sell_order, together with the market enum from
src/abupy/CoreBu/ABuEnv.py).

Modelling conventions:
  * Python floats are modelled by the type FloatV: an exact rational value or
    one of the IEEE special values +inf, -inf, NaN, with the IEEE comparison
    semantics the code relies on (`bp < np.inf`, `np.isnan`,
    `sell_price == -np.inf`, `sell_price > buy_price`).
  * Python ints are modelled by Int; Python's `%` on ints is Int.emod, which
    agrees with Python for positive modulus.
  * Mutation of the AbuOrder object is modelled by explicit state passing:
    each method maps the incoming record to the outgoing record.
  * The pluggable collaborators (slippage strategy, position sizer, sell
    factor, market/unit lookup services) are parameters gathered in a context
    record; the engine code under verification is exactly the body of
    fit_buy_order / fit_sell_order.
-/

instance {ε α : Type} [DecidableEq ε] [DecidableEq α] : DecidableEq (Except ε α)
  | .error a, .error b =>
    decidable_of_iff (a = b) ⟨congrArg _, fun h => by cases h; rfl⟩
  | .error _, .ok _ => .isFalse fun h => Except.noConfusion h
  | .ok _, .error _ => .isFalse fun h => Except.noConfusion h
  | .ok a, .ok b =>
    decidable_of_iff (a = b) ⟨congrArg _, fun h => by cases h; rfl⟩

/-- IEEE-style value of a Python float: an exact rational, +inf, -inf or NaN. -/
inductive FloatV where
  | finite (q : ℚ)
  | posInf
  | negInf
  | nan
deriving DecidableEq, Repr

namespace FloatV

/-- IEEE `<` on float values: NaN is incomparable, -inf below every finite
value and +inf, +inf above every finite value. -/
def lt : FloatV → FloatV → Bool
  | finite a, finite b => decide (a < b)
  | finite _, posInf => true
  | negInf, finite _ => true
  | negInf, posInf => true
  | _, _ => false

/-- `np.isnan`. -/
def isNan : FloatV → Bool
  | nan => true
  | _ => false

/-- the test `x == -np.inf` used on the sell side. -/
def isNegInf : FloatV → Bool
  | negInf => true
  | _ => false

theorem lt_self_eq_false (x : FloatV) : lt x x = false := by
  cases x <;> simp [lt]

end FloatV

/-- the comparison `sell_price > self.buy_price` where `buy_price` is an
optional field.  For an OPEN order the field is always set; the `none`
default is unreachable there (Python 3 would raise comparing against None). -/
def gtOpt (a : FloatV) : Option FloatV → Bool
  | some b => FloatV.lt b a
  | none => false

/-- `EMarketTargetType` from src/abupy/CoreBu/ABuEnv.py, extended with an
`unknown` tag: the dispatch in fit_buy_order compares the ambient market
value against the seven enum members and raises on anything else, so the
market value space is the seven members plus arbitrary other identifiers. -/
inductive Market where
  | us
  | cn
  | hk
  | tc
  | futures_cn
  | futures_global
  | options_us
  | unknown (tag : String)
deriving DecidableEq, Repr

/-- the feature bag `ml_features` (Optional[dict]); its contents are opaque
to the engine, which never reads them. -/
abbrev MLFeatures := List (String × ℚ)

/-- the `AbuOrder` record: the sixteen `__slots__` fields of
src/abupy/TradeBu/ABuOrder.py. -/
structure AbuOrder where
  order_deal : Bool
  buy_symbol : Option String
  buy_date : Option Int
  buy_factor : Option String
  buy_factor_class : Option String
  buy_price : Option FloatV
  buy_cnt : Option FloatV
  buy_pos : Option String
  sell_date : Option Int
  buy_type_str : Option String
  expect_direction : Option ℚ
  sell_type : String
  keep_days : Int
  sell_price : Option FloatV
  sell_type_extra : String
  ml_features : Option MLFeatures
deriving DecidableEq, Repr

/-- `AbuOrder.__init__`: order_deal false, every payload field unset,
sell_type 'keep', keep_days 0, sell_type_extra empty. -/
def initOrder : AbuOrder :=
  { order_deal := false
    buy_symbol := none
    buy_date := none
    buy_factor := none
    buy_factor_class := none
    buy_price := none
    buy_cnt := none
    buy_pos := none
    sell_date := none
    buy_type_str := none
    expect_direction := none
    sell_type := "keep"
    keep_days := 0
    sell_price := none
    sell_type_extra := ""
    ml_features := none }

/-- the error raised by the market dispatch in fit_buy_order
(`raise TypeError('ABuEnv.g_market_target ERROR, market={} ...')`, the
spec's UnsupportedMarketError, carrying the offending market value), and
the OverflowError `math.floor` raises on an infinite argument. -/
inductive BuyError where
  | unsupportedMarket (m : Market)
  | overflowError
deriving DecidableEq, Repr

/-- `int(math.floor(bc))`: the floor of a finite float; on ±inf Python's
math.floor raises OverflowError (NaN is filtered out before this point). -/
def pyFloorToInt : FloatV → Except BuyError Int
  | .finite q => .ok ⌊q⌋
  | _ => .error .overflowError

/-- decimal round-half-to-even to an integer, the semantics of Python's
built-in `round`. -/
def roundHalfEven (x : ℚ) : Int :=
  let f := ⌊x⌋
  let r := x - f
  if r < 1 / 2 then f
  else if 1 / 2 < r then f + 1
  else if f % 2 = 0 then f else f + 1

/-- `round(bc, 3)`: round to three decimal places; ±inf and NaN pass
through unchanged as in Python. -/
def pyRound3 : FloatV → FloatV
  | .finite q => .finite ((roundHalfEven (q * 1000) : ℚ) / 1000)
  | x => x

/-- the repeated pattern `buy_cnt = int(math.floor(bc)); ...;
buy_cnt -= buy_cnt % min_cnt` shared by the CN / HK / futures / options
branches of the market dispatch. -/
def floorLot (bc : FloatV) (unit : Int) : Except BuyError (FloatV × ℚ) :=
  match pyFloorToInt bc with
  | .error e => .error e
  | .ok n => .ok (.finite ((n - n % unit : Int) : ℚ), (unit : ℚ))

/-- the per-trade context of fit_buy_order: everything the method reads
from its collaborators (the buy factor, its slippage and position-sizer
strategies, the ambient market configuration and the external per-symbol
unit lookup services). -/
structure BuyCtx where
  /-- result of `slippage_class(kl_pd_buy, factor_name).fit()`. -/
  slippageFit : FloatV
  /-- `position.fit_position(factor_object)` as a function of the buy
  price the sizer was constructed with. -/
  sizer : FloatV → FloatV
  /-- `ABuEnv.g_market_target if ABuMarket.g_use_env_market_set else
  position.symbol_market`. -/
  market : Market
  /-- `AbuHkUnit().query_unit(factor_object.kl_pd.name)`. -/
  hkUnit : Int
  /-- `AbuFuturesCn().query_min_unit(factor_object.kl_pd.name)`. -/
  futuresCnUnit : Int
  /-- `AbuFuturesGB().query_min_unit(factor_object.kl_pd.name)`. -/
  futuresGbUnit : Int
  /-- `kl_pd.name`. -/
  symbol : String
  /-- `int(kl_pd_buy.date)`. -/
  buyDate : Int
  /-- `factor_object.factor_name` (or 'unknown'). -/
  factorName : String
  /-- `factor_object.__class__.__name__`. -/
  factorClass : String
  /-- `position.__class__.__name__`. -/
  posClass : String
  /-- `factor_object.buy_type_str`. -/
  buyTypeStr : String
  /-- `factor_object.expect_direction`. -/
  expectDirection : ℚ

/-- the market dispatch of fit_buy_order: the floor / 3-decimal rounding of
the raw sizer quantity followed by the per-market minimum-unit selection and
lot alignment, returning (buy_cnt, min_cnt) or raising.  For every non-TC
market the floor runs first, so an infinite quantity raises OverflowError
before an unknown market raises; an unknown market then raises the
spec's UnsupportedMarketError carrying the offending value. -/
def lotRound (ctx : BuyCtx) (bc : FloatV) : Except BuyError (FloatV × ℚ) :=
  match ctx.market with
  | .tc => .ok (pyRound3 bc, 1 / 100)
  | .us =>
    match pyFloorToInt bc with
    | .error e => .error e
    | .ok n => .ok (.finite (n : ℚ), 1)
  | .cn => floorLot bc 100
  | .hk => floorLot bc ctx.hkUnit
  | .futures_cn => floorLot bc ctx.futuresCnUnit
  | .options_us => floorLot bc 100
  | .futures_global => floorLot bc ctx.futuresGbUnit
  | .unknown s =>
    match pyFloorToInt bc with
    | .error e => .error e
    | .ok _ => .error (.unsupportedMarket (.unknown s))

/-- the block of field writes at the end of fit_buy_order: every one of the
sixteen slots is assigned, the buy side from the computed values and the
sell side reset to its initial state, ending with `order_deal = True`. -/
def filledOrder (ctx : BuyCtx) (bp buy_cnt : FloatV) : AbuOrder :=
  { order_deal := true
    buy_symbol := some ctx.symbol
    buy_date := some ctx.buyDate
    buy_factor := some ctx.factorName
    buy_factor_class := some ctx.factorClass
    buy_price := some bp
    buy_cnt := some buy_cnt
    buy_pos := some ctx.posClass
    sell_date := none
    buy_type_str := some ctx.buyTypeStr
    expect_direction := some ctx.expectDirection
    sell_type := "keep"
    keep_days := 0
    sell_price := none
    sell_type_extra := ""
    ml_features := none }

/-- `AbuOrder.fit_buy_order`: slippage veto (`bp < np.inf`), sizer veto
(`np.isnan(bc)`), market lot rounding, minimum-unit veto
(`buy_cnt < min_cnt`), then the atomic field-write block. -/
def fitBuyOrder (o : AbuOrder) (ctx : BuyCtx) : Except BuyError AbuOrder :=
  let bp := ctx.slippageFit
  if bp.lt .posInf = true then
    let bc := ctx.sizer bp
    if bc.isNan = true then .ok o
    else
      match lotRound ctx bc with
      | .error e => .error e
      | .ok (buy_cnt, min_cnt) =>
        if buy_cnt.lt (.finite min_cnt) = true then .ok o
        else .ok (filledOrder ctx bp buy_cnt)
  else .ok o

/-- the per-call context of fit_sell_order: the sell factor collaborator.
`makeSellOrder` models `factor_object.make_sell_order(self, day_ind)`: it
answers the exit predicate and, per the spec of the sell-factor interface,
may synthesize ML features into the order's feature bag as a side effect
before answering; the returned Option is the new content of `ml_features`. -/
structure SellCtx where
  makeSellOrder : AbuOrder → Bool × Option MLFeatures
  /-- result of `slippage_class(kl_pd_sell, factor_name).fit()`. -/
  sellSlippage : FloatV
  /-- `factor_object.sell_type_extra` (or 'unknown'). -/
  sellTypeExtra : String
  /-- `int(kl_pd_sell.date)`. -/
  sellDate : Int

/-- `AbuOrder.fit_sell_order`: short-circuit on `sell_type != 'keep'`,
delegate to `make_sell_order`, sell-side slippage with the `-np.inf`
sentinel, then the sell-side writes and the call/put win-loss rule. -/
def fitSellOrder (o : AbuOrder) (ctx : SellCtx) : AbuOrder :=
  if o.sell_type ≠ "keep" then o
  else
    let res := ctx.makeSellOrder o
    let o1 : AbuOrder := { o with ml_features := res.2 }
    if res.1 then
      let sp := ctx.sellSlippage
      if sp.isNegInf = true then o1
      else
        { o1 with
          sell_price := some sp
          sell_type_extra := ctx.sellTypeExtra
          sell_type :=
            if o1.buy_type_str = some "call" then
              if gtOpt sp o1.buy_price then "win" else "loss"
            else
              if gtOpt sp o1.buy_price then "loss" else "win"
          sell_date := some ctx.sellDate }
    else o1

/-- Modelled from the spec: the Order Fulfillment Engine's day-stepping loop
(the caller of fit_buy_order) is not under src/.  Per §4.4 buy evaluation is
invoked once per candidate day while no open order exists; silent vetoes
continue to the next day, a fill stops the buy loop, and an exception
propagates and aborts the run (§7: configuration errors are not swallowed). -/
def engineRunBuyDays (o : AbuOrder) : List BuyCtx → Except BuyError AbuOrder
  | [] => .ok o
  | ctx :: rest =>
    match fitBuyOrder o ctx with
    | .error e => .error e
    | .ok o' => if o'.order_deal then .ok o' else engineRunBuyDays o' rest

/-- the orders observable in a backtest lane: the fresh record, then any
interleaving of buy evaluations, sell evaluations and the caller's day
stepping (which, modelled from the spec, only increments `keep_days`). -/
inductive Reachable : AbuOrder → Prop where
  | init : Reachable initOrder
  | buy (o : AbuOrder) (ctx : BuyCtx) (o' : AbuOrder) (ho : Reachable o)
      (h : fitBuyOrder o ctx = .ok o') : Reachable o'
  | sell (o : AbuOrder) (ctx : SellCtx) (ho : Reachable o) :
      Reachable (fitSellOrder o ctx)
  | keepDay (o : AbuOrder) (ho : Reachable o) :
      Reachable { o with keep_days := o.keep_days + 1 }

/-- the buy-side fields of the data model, all unset. -/
def buyFieldsUnset (o : AbuOrder) : Prop :=
  o.buy_symbol = none ∧ o.buy_date = none ∧ o.buy_factor = none ∧
  o.buy_factor_class = none ∧ o.buy_price = none ∧ o.buy_cnt = none ∧
  o.buy_pos = none ∧ o.buy_type_str = none ∧ o.expect_direction = none

/-- the buy-side fields of the data model, all set. -/
def buyFieldsSet (o : AbuOrder) : Prop :=
  o.buy_symbol.isSome = true ∧ o.buy_date.isSome = true ∧
  o.buy_factor.isSome = true ∧ o.buy_factor_class.isSome = true ∧
  o.buy_price.isSome = true ∧ o.buy_cnt.isSome = true ∧
  o.buy_pos.isSome = true ∧ o.buy_type_str.isSome = true ∧
  o.expect_direction.isSome = true

/-- the three silent vetoes of fit_buy_order all pass: the slippage price is
below +inf, the sizer quantity is not NaN, and the lot-rounded quantity is
not below the market's minimum unit. -/
def buyVetoesPass (ctx : BuyCtx) : Prop :=
  ctx.slippageFit.lt .posInf = true ∧
  (ctx.sizer ctx.slippageFit).isNan = false ∧
  ∃ cnt mn, lotRound ctx (ctx.sizer ctx.slippageFit) = .ok (cnt, mn) ∧
    cnt.lt (.finite mn) = false

/-- one of the three silent vetoes of fit_buy_order fires. -/
def buyVetoFires (ctx : BuyCtx) : Prop :=
  ctx.slippageFit.lt .posInf = false ∨
  (ctx.sizer ctx.slippageFit).isNan = true ∨
  ∃ cnt mn, lotRound ctx (ctx.sizer ctx.slippageFit) = .ok (cnt, mn) ∧
    cnt.lt (.finite mn) = true

/-- a sample collaborator context: CN market, slippage fills at 100,
sizer asks for 250 units. -/
def sampleCtx : BuyCtx :=
  { slippageFit := .finite 100
    sizer := fun _ => .finite 250
    market := .cn
    hkUnit := 500
    futuresCnUnit := 10
    futuresGbUnit := 5
    symbol := "sample"
    buyDate := 20230101
    factorName := "f"
    factorClass := "F"
    posClass := "P"
    buyTypeStr := "call"
    expectDirection := 1 }

/-- a sample open order: a filled call order bought at 100 for 200 units,
held for 3 days. -/
def sampleOpen : AbuOrder :=
  { order_deal := true
    buy_symbol := some "sample"
    buy_date := some 20230101
    buy_factor := some "f"
    buy_factor_class := some "F"
    buy_price := some (.finite 100)
    buy_cnt := some (.finite 200)
    buy_pos := some "P"
    sell_date := none
    buy_type_str := some "call"
    expect_direction := some 1
    sell_type := "keep"
    keep_days := 3
    sell_price := none
    sell_type_extra := ""
    ml_features := none }

/-- a sample sell-factor context: exit approved, no features synthesized,
slippage fills the exit at 120. -/
def sampleSellCtx : SellCtx :=
  { makeSellOrder := fun _ => (true, none)
    sellSlippage := .finite 120
    sellTypeExtra := "e"
    sellDate := 20230110 }

lemma fitBuy_of_not_lt (o : AbuOrder) (ctx : BuyCtx)
    (h : ctx.slippageFit.lt .posInf = false) : fitBuyOrder o ctx = .ok o := by
  simp [fitBuyOrder, h]

lemma fitBuy_of_nan (o : AbuOrder) (ctx : BuyCtx)
    (h2 : (ctx.sizer ctx.slippageFit).isNan = true) : fitBuyOrder o ctx = .ok o := by
  by_cases h1 : ctx.slippageFit.lt .posInf = true <;>
    simp [fitBuyOrder, h1, h2]

lemma fitBuy_of_err (o : AbuOrder) (ctx : BuyCtx) (e : BuyError)
    (h1 : ctx.slippageFit.lt .posInf = true)
    (h2 : (ctx.sizer ctx.slippageFit).isNan = false)
    (h3 : lotRound ctx (ctx.sizer ctx.slippageFit) = .error e) :
    fitBuyOrder o ctx = .error e := by
  simp [fitBuyOrder, h1, h2, h3]

lemma fitBuy_of_small (o : AbuOrder) (ctx : BuyCtx) (cnt : FloatV) (mn : ℚ)
    (h1 : ctx.slippageFit.lt .posInf = true)
    (h2 : (ctx.sizer ctx.slippageFit).isNan = false)
    (h3 : lotRound ctx (ctx.sizer ctx.slippageFit) = .ok (cnt, mn))
    (h4 : cnt.lt (.finite mn) = true) : fitBuyOrder o ctx = .ok o := by
  simp [fitBuyOrder, h1, h2, h3, h4]

lemma fitBuy_of_fill (o : AbuOrder) (ctx : BuyCtx) (cnt : FloatV) (mn : ℚ)
    (h1 : ctx.slippageFit.lt .posInf = true)
    (h2 : (ctx.sizer ctx.slippageFit).isNan = false)
    (h3 : lotRound ctx (ctx.sizer ctx.slippageFit) = .ok (cnt, mn))
    (h4 : cnt.lt (.finite mn) = false) :
    fitBuyOrder o ctx = .ok (filledOrder ctx ctx.slippageFit cnt) := by
  simp [fitBuyOrder, h1, h2, h3, h4]

/-- exhaustive case analysis of fit_buy_order: the call either returns the
incoming order unchanged (a silent veto), raises, or returns the freshly
written record of the success branch. -/
lemma fitBuyOrder_cases (o : AbuOrder) (ctx : BuyCtx) :
    fitBuyOrder o ctx = .ok o ∨
    (∃ e, fitBuyOrder o ctx = .error e) ∨
    (∃ cnt mn, lotRound ctx (ctx.sizer ctx.slippageFit) = .ok (cnt, mn) ∧
      cnt.lt (.finite mn) = false ∧
      ctx.slippageFit.lt .posInf = true ∧
      (ctx.sizer ctx.slippageFit).isNan = false ∧
      fitBuyOrder o ctx = .ok (filledOrder ctx ctx.slippageFit cnt)) := by
  by_cases h1 : ctx.slippageFit.lt .posInf = true
  · by_cases h2 : (ctx.sizer ctx.slippageFit).isNan = true
    · exact Or.inl (fitBuy_of_nan o ctx h2)
    · rw [Bool.not_eq_true] at h2
      cases h3 : lotRound ctx (ctx.sizer ctx.slippageFit) with
      | error e => exact Or.inr (Or.inl ⟨e, fitBuy_of_err o ctx e h1 h2 h3⟩)
      | ok p =>
        obtain ⟨cnt, mn⟩ := p
        by_cases h4 : cnt.lt (.finite mn) = true
        · exact Or.inl (fitBuy_of_small o ctx cnt mn h1 h2 h3 h4)
        · rw [Bool.not_eq_true] at h4
          exact Or.inr (Or.inr ⟨cnt, mn, rfl, h4, h1, h2,
            fitBuy_of_fill o ctx cnt mn h1 h2 h3 h4⟩)
  · rw [Bool.not_eq_true] at h1
    exact Or.inl (fitBuy_of_not_lt o ctx h1)

/-- fit_sell_order never touches order_deal, keep_days, or any buy-side
field, in any of its branches. -/
lemma fitSellOrder_frame (o : AbuOrder) (ctx : SellCtx) :
    (fitSellOrder o ctx).order_deal = o.order_deal ∧
    (fitSellOrder o ctx).keep_days = o.keep_days ∧
    (fitSellOrder o ctx).buy_symbol = o.buy_symbol ∧
    (fitSellOrder o ctx).buy_date = o.buy_date ∧
    (fitSellOrder o ctx).buy_factor = o.buy_factor ∧
    (fitSellOrder o ctx).buy_factor_class = o.buy_factor_class ∧
    (fitSellOrder o ctx).buy_price = o.buy_price ∧
    (fitSellOrder o ctx).buy_cnt = o.buy_cnt ∧
    (fitSellOrder o ctx).buy_pos = o.buy_pos ∧
    (fitSellOrder o ctx).buy_type_str = o.buy_type_str ∧
    (fitSellOrder o ctx).expect_direction = o.expect_direction := by
  simp only [fitSellOrder]
  split
  · simp
  · split
    · split <;> simp
    · simp

/-- a closed (already sold) order: sampleOpen after a win exit at 120. -/
def sampleClosed : AbuOrder :=
  { sampleOpen with
    sell_type := "win"
    sell_price := some (.finite 120)
    sell_date := some 20230110 }

/-- C1: when fit_sell_order writes a classification, a 'call' order is WIN
iff sell_price > buy_price (otherwise LOSS) and a 'put' order is LOSS iff
sell_price > buy_price (otherwise WIN); at sell_price = buy_price a call is
classified LOSS and a put WIN. -/
theorem sell_win_loss_rule (o : AbuOrder) (ctx : SellCtx) (bpv : FloatV)
    (hk : o.sell_type = "keep")
    (ha : (ctx.makeSellOrder o).1 = true)
    (hs : ctx.sellSlippage.isNegInf = false)
    (hb : o.buy_price = some bpv) :
    (o.buy_type_str = some "call" →
      (fitSellOrder o ctx).sell_type =
        if FloatV.lt bpv ctx.sellSlippage = true then "win" else "loss") ∧
    (o.buy_type_str = some "put" →
      (fitSellOrder o ctx).sell_type =
        if FloatV.lt bpv ctx.sellSlippage = true then "loss" else "win") ∧
    (ctx.sellSlippage = bpv →
      (o.buy_type_str = some "call" → (fitSellOrder o ctx).sell_type = "loss") ∧
      (o.buy_type_str = some "put" → (fitSellOrder o ctx).sell_type = "win")) := by
  refine ⟨?_, ?_, ?_⟩
  · intro hc
    simp [fitSellOrder, hk, ha, hs, hc, hb, gtOpt]
  · intro hc
    simp [fitSellOrder, hk, ha, hs, hc, hb, gtOpt]
  · intro he
    subst he
    constructor
    · intro hc
      simp [fitSellOrder, hk, ha, hs, hc, hb, gtOpt, FloatV.lt_self_eq_false]
    · intro hc
      simp [fitSellOrder, hk, ha, hs, hc, hb, gtOpt, FloatV.lt_self_eq_false]

/-- C1 witness: the sample call order bought at 100 and sold at 120 is
classified WIN. -/
theorem sell_win_loss_rule_witness :
    (fitSellOrder sampleOpen sampleSellCtx).sell_type = "win" := by
  have h := sell_win_loss_rule sampleOpen sampleSellCtx (.finite 100) rfl rfl rfl rfl
  have hc := h.1 rfl
  rw [hc]
  norm_num [sampleSellCtx, FloatV.lt]

/-- C8: fit_sell_order on an order whose sell_state is not KEEP is an
immediate no-op that mutates nothing, so running sell evaluation twice on a
CLOSED order equals running it once. -/
theorem sell_closed_noop (o : AbuOrder) (ctx ctx' : SellCtx)
    (h : o.sell_type ≠ "keep") :
    fitSellOrder o ctx = o ∧
    fitSellOrder (fitSellOrder o ctx) ctx' = fitSellOrder o ctx := by
  have h1 : fitSellOrder o ctx = o := by simp [fitSellOrder, h]
  refine ⟨h1, ?_⟩
  rw [h1]
  simp [fitSellOrder, h]

/-- C8 witness: the sample closed order is untouched by a further sell
evaluation. -/
theorem sell_closed_noop_witness :
    sampleClosed.sell_type ≠ "keep" ∧
    fitSellOrder sampleClosed sampleSellCtx = sampleClosed := by
  have h := sell_closed_noop sampleClosed sampleSellCtx sampleSellCtx (by decide)
  exact ⟨by decide, h.1⟩

/-- C9: on an approved sell evaluation of a KEEP order, a -inf sell
slippage leaves every sell-side field and the KEEP state untouched, while
any other price writes sell_price, sell_type_extra, the classification and
sell_date; in every case the buy-side fields, order_deal and keep_days are
left unchanged. -/
theorem sell_eval_writes_and_frame (o : AbuOrder) (ctx : SellCtx)
    (hk : o.sell_type = "keep")
    (ha : (ctx.makeSellOrder o).1 = true) :
    ((fitSellOrder o ctx).order_deal = o.order_deal ∧
     (fitSellOrder o ctx).keep_days = o.keep_days ∧
     (fitSellOrder o ctx).buy_symbol = o.buy_symbol ∧
     (fitSellOrder o ctx).buy_date = o.buy_date ∧
     (fitSellOrder o ctx).buy_factor = o.buy_factor ∧
     (fitSellOrder o ctx).buy_factor_class = o.buy_factor_class ∧
     (fitSellOrder o ctx).buy_price = o.buy_price ∧
     (fitSellOrder o ctx).buy_cnt = o.buy_cnt ∧
     (fitSellOrder o ctx).buy_pos = o.buy_pos ∧
     (fitSellOrder o ctx).buy_type_str = o.buy_type_str ∧
     (fitSellOrder o ctx).expect_direction = o.expect_direction) ∧
    (ctx.sellSlippage.isNegInf = true →
      (fitSellOrder o ctx).sell_type = "keep" ∧
      (fitSellOrder o ctx).sell_price = o.sell_price ∧
      (fitSellOrder o ctx).sell_date = o.sell_date ∧
      (fitSellOrder o ctx).sell_type_extra = o.sell_type_extra) ∧
    (ctx.sellSlippage.isNegInf = false →
      (fitSellOrder o ctx).sell_price = some ctx.sellSlippage ∧
      (fitSellOrder o ctx).sell_type_extra = ctx.sellTypeExtra ∧
      (fitSellOrder o ctx).sell_date = some ctx.sellDate ∧
      ((fitSellOrder o ctx).sell_type = "win" ∨
        (fitSellOrder o ctx).sell_type = "loss")) := by
  refine ⟨fitSellOrder_frame o ctx, ?_, ?_⟩
  · intro h
    simp [fitSellOrder, hk, ha, h]
  · intro h
    simp only [fitSellOrder, hk, ha, h]
    simp
    split
    · split
      · exact Or.inl rfl
      · exact Or.inr rfl
    · split
      · exact Or.inr rfl
      · exact Or.inl rfl

/-- C9 witness: selling the sample open order at 120 keeps keep_days and
the buy side intact and writes the sell side. -/
theorem sell_eval_writes_and_frame_witness :
    (fitSellOrder sampleOpen sampleSellCtx).keep_days = sampleOpen.keep_days ∧
    (fitSellOrder sampleOpen sampleSellCtx).buy_price = sampleOpen.buy_price ∧
    (fitSellOrder sampleOpen sampleSellCtx).sell_price = some (.finite 120) ∧
    (fitSellOrder sampleOpen sampleSellCtx).sell_date = some 20230110 := by
  have h := sell_eval_writes_and_frame sampleOpen sampleSellCtx rfl rfl
  exact ⟨h.1.2.1, h.1.2.2.2.2.2.2.1, (h.2.2 rfl).1, (h.2.2 rfl).2.2.1⟩

lemma isNan_eq_false_of_lt_posInf (x : FloatV) (h : x.lt .posInf = true) :
    x.isNan = false := by
  cases x <;> simp_all [FloatV.lt, FloatV.isNan]

/-- C2: fit_buy_order transitions an unfilled order to order_deal = true
exactly when the three silent vetoes pass (slippage price below +inf, sizer
quantity not NaN, lot-rounded quantity at least the market minimum); when a
veto fires the call returns the order in its unfilled state. -/
theorem buy_fill_iff_vetoes (o : AbuOrder) (ctx : BuyCtx)
    (h0 : o.order_deal = false) :
    ((∃ o', fitBuyOrder o ctx = .ok o' ∧ o'.order_deal = true) ↔
      buyVetoesPass ctx) ∧
    (buyVetoFires ctx → fitBuyOrder o ctx = .ok o) := by
  constructor
  · constructor
    · rintro ⟨o', ho, hd⟩
      rcases fitBuyOrder_cases o ctx with hc | ⟨e, he⟩ | ⟨cnt, mn, h3, h4, h1, h2, h5⟩
      · rw [hc] at ho
        injection ho with ho
        subst ho
        simp [h0] at hd
      · rw [he] at ho
        cases ho
      · exact ⟨h1, h2, cnt, mn, h3, h4⟩
    · rintro ⟨h1, h2, cnt, mn, h3, h4⟩
      exact ⟨filledOrder ctx ctx.slippageFit cnt,
        fitBuy_of_fill o ctx cnt mn h1 h2 h3 h4, rfl⟩
  · rintro (h | h | ⟨cnt, mn, h3, h4⟩)
    · exact fitBuy_of_not_lt o ctx h
    · exact fitBuy_of_nan o ctx h
    · by_cases h1 : ctx.slippageFit.lt .posInf = true
      · by_cases h2 : (ctx.sizer ctx.slippageFit).isNan = true
        · exact fitBuy_of_nan o ctx h2
        · rw [Bool.not_eq_true] at h2
          exact fitBuy_of_small o ctx cnt mn h1 h2 h3 h4
      · rw [Bool.not_eq_true] at h1
        exact fitBuy_of_not_lt o ctx h1

/-- C2 witness: with the sample CN context all three vetoes pass and the
fresh order fills. -/
theorem buy_fill_iff_vetoes_witness :
    ∃ o', fitBuyOrder initOrder sampleCtx = .ok o' ∧ o'.order_deal = true := by
  have h := buy_fill_iff_vetoes initOrder sampleCtx rfl
  exact h.1.mpr ⟨rfl, rfl, .finite 200, 100, by decide, by decide⟩

/-- C10: a NaN buy-side slippage price fails the `bp < np.inf` comparison,
so fit_buy_order aborts silently exactly as for +inf, its result does not
depend on the position sizer, and no fill ever records a NaN buy price. -/
theorem buy_nan_slippage_veto (o : AbuOrder) (ctx : BuyCtx)
    (h : ctx.slippageFit = .nan) :
    fitBuyOrder o ctx = .ok o ∧
    (∀ f, fitBuyOrder o { ctx with sizer := f } = .ok o) ∧
    FloatV.lt .nan .posInf = false ∧
    (∀ ctx2 : BuyCtx, ctx2.slippageFit = .posInf → fitBuyOrder o ctx2 = .ok o) ∧
    (∀ (o1 : AbuOrder) (ctx1 : BuyCtx) (o2 : AbuOrder),
      fitBuyOrder o1 ctx1 = .ok o2 → o2.order_deal = true → o1.order_deal = false →
      o2.buy_price = some ctx1.slippageFit ∧ ctx1.slippageFit.isNan = false) := by
  refine ⟨fitBuy_of_not_lt o ctx (by rw [h]; rfl),
    fun f => fitBuy_of_not_lt o _ (by rw [show BuyCtx.slippageFit { ctx with sizer := f } = ctx.slippageFit from rfl, h]; rfl),
    rfl,
    fun ctx2 h2 => fitBuy_of_not_lt o ctx2 (by rw [h2]; rfl),
    ?_⟩
  intro o1 ctx1 o2 ho hd h0
  rcases fitBuyOrder_cases o1 ctx1 with hc | ⟨e, he⟩ | ⟨cnt, mn, h3, h4, h1, h2, h5⟩
  · rw [hc] at ho
    injection ho with ho
    subst ho
    simp [h0] at hd
  · rw [he] at ho
    cases ho
  · rw [h5] at ho
    injection ho with ho
    subst ho
    exact ⟨rfl, isNan_eq_false_of_lt_posInf _ h1⟩

/-- C10 witness: a NaN slippage price leaves the fresh order untouched. -/
theorem buy_nan_slippage_veto_witness :
    fitBuyOrder initOrder { sampleCtx with slippageFit := .nan } = .ok initOrder := by
  exact (buy_nan_slippage_veto initOrder { sampleCtx with slippageFit := .nan } rfl).1

/-- the sample buy context replayed on a later day. -/
def sampleCtx2 : BuyCtx := { sampleCtx with buyDate := 20230102 }

/-- C4 counterexample: fit_buy_order has no order_deal guard — re-invoking
it on an already OPEN order whose context passes every veto rewrites the
record (here the buy date changes and keep_days resets), so it does not
leave every field unchanged. -/
theorem buy_double_fill_counterexample :
    sampleOpen.order_deal = true ∧
    fitBuyOrder sampleOpen sampleCtx2 =
      .ok (filledOrder sampleCtx2 (.finite 100) (.finite 200)) ∧
    (filledOrder sampleCtx2 (.finite 100) (.finite 200)).buy_date ≠
      sampleOpen.buy_date ∧
    (filledOrder sampleCtx2 (.finite 100) (.finite 200)).keep_days ≠
      sampleOpen.keep_days := by
  refine ⟨rfl, by decide, by decide, by decide⟩

/-- C4 amended: fit_buy_order ignores the order's current state entirely:
on any two incoming orders the same context either produces the identical
result (an error, or the freshly overwritten record) or returns each order
unchanged (a silent veto), so the no-double-fill invariant holds only
because the engine's caller invokes buy evaluation solely while no open
order exists. -/
theorem buy_eval_ignores_order_state (o1 o2 : AbuOrder) (ctx : BuyCtx) :
    fitBuyOrder o1 ctx = fitBuyOrder o2 ctx ∨
    (fitBuyOrder o1 ctx = .ok o1 ∧ fitBuyOrder o2 ctx = .ok o2) := by
  by_cases h1 : ctx.slippageFit.lt .posInf = true
  · by_cases h2 : (ctx.sizer ctx.slippageFit).isNan = true
    · exact Or.inr ⟨fitBuy_of_nan o1 ctx h2, fitBuy_of_nan o2 ctx h2⟩
    · rw [Bool.not_eq_true] at h2
      cases h3 : lotRound ctx (ctx.sizer ctx.slippageFit) with
      | error e =>
        exact Or.inl (by
          rw [fitBuy_of_err o1 ctx e h1 h2 h3, fitBuy_of_err o2 ctx e h1 h2 h3])
      | ok p =>
        obtain ⟨cnt, mn⟩ := p
        by_cases h4 : cnt.lt (.finite mn) = true
        · exact Or.inr ⟨fitBuy_of_small o1 ctx cnt mn h1 h2 h3 h4,
            fitBuy_of_small o2 ctx cnt mn h1 h2 h3 h4⟩
        · rw [Bool.not_eq_true] at h4
          exact Or.inl (by
            rw [fitBuy_of_fill o1 ctx cnt mn h1 h2 h3 h4,
              fitBuy_of_fill o2 ctx cnt mn h1 h2 h3 h4])
  · rw [Bool.not_eq_true] at h1
    exact Or.inr ⟨fitBuy_of_not_lt o1 ctx h1, fitBuy_of_not_lt o2 ctx h1⟩

/-- C3: over every reachable order record the buy side is all-or-nothing:
an unfilled record has no buy-side field set, and a filled record has all
of them set — they are written together in the single atomic success step
of fit_buy_order, so no partial record is observable after a veto or after
success. -/
theorem buy_fields_all_or_nothing (o : AbuOrder) (h : Reachable o) :
    (o.order_deal = false → buyFieldsUnset o) ∧
    (o.order_deal = true → buyFieldsSet o) := by
  induction h with
  | init =>
    refine ⟨fun _ => ⟨rfl, rfl, rfl, rfl, rfl, rfl, rfl, rfl, rfl⟩, fun hd => ?_⟩
    simp [initOrder] at hd
  | buy o ctx o' ho hstep ih =>
    rcases fitBuyOrder_cases o ctx with hc | ⟨e, he⟩ | ⟨cnt, mn, h3, h4, h1, h2, h5⟩
    · rw [hc] at hstep
      injection hstep with hstep
      subst hstep
      exact ih
    · rw [he] at hstep
      cases hstep
    · rw [h5] at hstep
      injection hstep with hstep
      subst hstep
      refine ⟨fun hd => ?_, fun _ => ⟨rfl, rfl, rfl, rfl, rfl, rfl, rfl, rfl, rfl⟩⟩
      simp [filledOrder] at hd
  | sell o ctx ho ih =>
    obtain ⟨hdeal, hkeep, hsym, hdate, hfac, hfcl, hpr, hcnt, hpos, hbt, hed⟩ :=
      fitSellOrder_frame o ctx
    constructor
    · intro hd
      rw [hdeal] at hd
      obtain ⟨u1, u2, u3, u4, u5, u6, u7, u8, u9⟩ := ih.1 hd
      exact ⟨hsym.trans u1, hdate.trans u2, hfac.trans u3, hfcl.trans u4,
        hpr.trans u5, hcnt.trans u6, hpos.trans u7, hbt.trans u8, hed.trans u9⟩
    · intro hd
      rw [hdeal] at hd
      obtain ⟨u1, u2, u3, u4, u5, u6, u7, u8, u9⟩ := ih.2 hd
      exact ⟨hsym ▸ u1, hdate ▸ u2, hfac ▸ u3, hfcl ▸ u4, hpr ▸ u5,
        hcnt ▸ u6, hpos ▸ u7, hbt ▸ u8, hed ▸ u9⟩
  | keepDay o ho ih =>
    simpa [buyFieldsUnset, buyFieldsSet] using ih

/-- C3 witness: the invariant evaluated at the freshly constructed record. -/
theorem buy_fields_all_or_nothing_witness :
    (initOrder.order_deal = false → buyFieldsUnset initOrder) ∧
    (initOrder.order_deal = true → buyFieldsSet initOrder) :=
  buy_fields_all_or_nothing initOrder Reachable.init

/-- C5: the lot-rounding rule per market: US takes floor with minimum unit
1; CN, HK, CN futures, global futures and US options take
floor(raw) - (floor(raw) mod min_unit), with min_unit 100 for CN and US
options and the externally looked-up unit for HK and the futures markets;
CN with raw 250 rounds to 200, US with raw 150.7 rounds to 150. -/
theorem lot_rounding_rule (ctx : BuyCtx) (q : ℚ) :
    lotRound { ctx with market := .us } (.finite q) =
      .ok (.finite ((⌊q⌋ : ℤ) : ℚ), 1) ∧
    lotRound { ctx with market := .cn } (.finite q) =
      .ok (.finite ((⌊q⌋ - ⌊q⌋ % 100 : ℤ) : ℚ), 100) ∧
    lotRound { ctx with market := .hk } (.finite q) =
      .ok (.finite ((⌊q⌋ - ⌊q⌋ % ctx.hkUnit : ℤ) : ℚ), (ctx.hkUnit : ℚ)) ∧
    lotRound { ctx with market := .futures_cn } (.finite q) =
      .ok (.finite ((⌊q⌋ - ⌊q⌋ % ctx.futuresCnUnit : ℤ) : ℚ),
        (ctx.futuresCnUnit : ℚ)) ∧
    lotRound { ctx with market := .futures_global } (.finite q) =
      .ok (.finite ((⌊q⌋ - ⌊q⌋ % ctx.futuresGbUnit : ℤ) : ℚ),
        (ctx.futuresGbUnit : ℚ)) ∧
    lotRound { ctx with market := .options_us } (.finite q) =
      .ok (.finite ((⌊q⌋ - ⌊q⌋ % 100 : ℤ) : ℚ), 100) ∧
    lotRound { ctx with market := .cn } (.finite 250) =
      .ok (.finite 200, 100) ∧
    lotRound { ctx with market := .us } (.finite (1507 / 10)) =
      .ok (.finite 150, 1) := by
  refine ⟨rfl, rfl, rfl, rfl, rfl, rfl, ?_, ?_⟩
  · norm_num [lotRound, floorLot, pyFloorToInt]
  · norm_num [lotRound, pyFloorToInt]

/-- round-half-to-even lands within half a unit of its argument. -/
lemma abs_roundHalfEven_sub_le (x : ℚ) :
    |(roundHalfEven x : ℚ) - x| ≤ 1 / 2 := by
  have h0 : (⌊x⌋ : ℚ) ≤ x := Int.floor_le x
  have h1 : x < ⌊x⌋ + 1 := Int.lt_floor_add_one x
  simp only [roundHalfEven]
  split_ifs with hr hr2 hev <;>
    (rw [abs_le]; constructor <;> push_cast <;> linarith)

/-- C6 counterexample: the crypto branch uses Python's `round`, not a
floor: for raw quantity 1.2346 the rounded quantity is 1.235, which
exceeds the raw quantity. -/
theorem crypto_round_exceeds_raw :
    lotRound { sampleCtx with market := .tc } (.finite (12346 / 10000)) =
      .ok (.finite (1235 / 1000), 1 / 100) ∧
    ¬((1235 / 1000 : ℚ) ≤ 12346 / 10000) := by
  constructor
  · norm_num [lotRound, pyRound3, roundHalfEven]
  · norm_num

/-- C6 amended: for the crypto market the raw sizer quantity is rounded
(half-to-even, Python `round`) to 3 decimal places — within 1/2000 of the
raw quantity but possibly above it — with minimum tradeable unit 0.01; a
raw quantity of 1.2345 yields 1.234. -/
theorem crypto_lot_rule (ctx : BuyCtx) (q : ℚ) :
    lotRound { ctx with market := .tc } (.finite q) =
      .ok (pyRound3 (.finite q), 1 / 100) ∧
    pyRound3 (.finite q) = .finite ((roundHalfEven (q * 1000) : ℚ) / 1000) ∧
    |(roundHalfEven (q * 1000) : ℚ) / 1000 - q| ≤ 1 / 2000 ∧
    lotRound { ctx with market := .tc } (.finite (12345 / 10000)) =
      .ok (.finite (1234 / 1000), 1 / 100) := by
  refine ⟨rfl, rfl, ?_, ?_⟩
  · have h := abs_roundHalfEven_sub_le (q * 1000)
    have he : (roundHalfEven (q * 1000) : ℚ) / 1000 - q =
        ((roundHalfEven (q * 1000) : ℚ) - q * 1000) / 1000 := by ring
    rw [he, abs_div]
    rw [show |(1000 : ℚ)| = 1000 by norm_num]
    calc |(roundHalfEven (q * 1000) : ℚ) - q * 1000| / 1000 ≤ (1 / 2) / 1000 := by
          gcongr
      _ = 1 / 2000 := by norm_num
  · norm_num [lotRound, pyRound3, roundHalfEven]

/-- the sample context misconfigured with an unrecognized market. -/
def marsCtx : BuyCtx := { sampleCtx with market := .unknown "MARS_COLONY" }

/-- C7: for any market identifier outside the seven supported markets the
lot-rounding dispatch fails with the unsupported-market error carrying the
offending value, fit_buy_order raises it rather than treating it as a
silent veto, and the (spec-modelled) fulfillment engine day loop does not
catch it — the whole run aborts with that error. -/
theorem unsupported_market_error (o : AbuOrder) (ctx : BuyCtx) (s : String)
    (rest : List BuyCtx) (q : ℚ)
    (hm : ctx.market = .unknown s)
    (h1 : ctx.slippageFit.lt .posInf = true)
    (hq : ctx.sizer ctx.slippageFit = .finite q) :
    lotRound ctx (ctx.sizer ctx.slippageFit) =
      .error (.unsupportedMarket (.unknown s)) ∧
    fitBuyOrder o ctx = .error (.unsupportedMarket (.unknown s)) ∧
    engineRunBuyDays o (ctx :: rest) =
      .error (.unsupportedMarket (.unknown s)) := by
  have hlot : lotRound ctx (ctx.sizer ctx.slippageFit) =
      .error (.unsupportedMarket (.unknown s)) := by
    rw [hq]
    simp [lotRound, hm, pyFloorToInt]
  have h2 : (ctx.sizer ctx.slippageFit).isNan = false := by
    rw [hq]
    rfl
  have hfit := fitBuy_of_err o ctx _ h1 h2 hlot
  exact ⟨hlot, hfit, by simp [engineRunBuyDays, hfit]⟩

/-- C7 witness: a MARS_COLONY market aborts both the buy evaluation and the
engine run with the unsupported-market error. -/
theorem unsupported_market_error_witness :
    fitBuyOrder initOrder marsCtx =
      .error (.unsupportedMarket (.unknown "MARS_COLONY")) ∧
    engineRunBuyDays initOrder [marsCtx] =
      .error (.unsupportedMarket (.unknown "MARS_COLONY")) := by
  have h := unsupported_market_error initOrder marsCtx "MARS_COLONY" [] 250 rfl rfl rfl
  exact ⟨h.2.1, h.2.2⟩
